import Mathlib

/-!
# Verification of the n8n_video render service (src/server.js)

Shallow embedding, in Lean 4, of the job-scheduling, download, pipeline
construction and cleanup logic of the asynchronous render server
(`src/server.js`, first variant, lines 1-551; the second variant, lines
552-1165, is embedded where a claim compares the two).  Every definition
carries a comment naming the JavaScript source lines it is translated from.

Strings are modelled with Lean `String`; JavaScript `includes` substring
tests become `strContains` (infix-of on the character lists); `Date.now()`
timestamps, durations and timeouts are `Nat` milliseconds; JavaScript
numbers used by the filter chains are `Rat` (all constants involved are
exact decimals).
-/

namespace RenderServer

-- ======================================================
-- Definitions (shallow embedding of src/server.js)
-- ======================================================

/-- `pat` occurs as a contiguous run inside the character list. -/
def listContainsSub (pat : List Char) : List Char → Bool
  | [] => pat.isPrefixOf []
  | c :: rest => pat.isPrefixOf (c :: rest) || listContainsSub pat rest

/-- JavaScript `a.includes(b)` on strings: `b` occurs as a contiguous
substring of `a`. -/
def strContains (s pat : String) : Bool :=
  listContainsSub pat.toList s.toList

/-- JavaScript `toLowerCase()` (character-wise; the header values and
patterns the source lowercases are ASCII, where this matches exactly). -/
def strToLower (s : String) : String :=
  String.mk (s.data.map Char.toLower)

instance : DecidableEq (Except String Unit) := fun a b =>
  match a, b with
  | .ok (), .ok () => isTrue rfl
  | .error x, .error y =>
    if h : x = y then isTrue (by rw [h])
    else isFalse (by intro c; injection c; contradiction)
  | .ok (), .error _ => isFalse (by intro c; injection c)
  | .error _, .ok () => isFalse (by intro c; injection c)

/-- The apostrophe character (U+0027), used inside source string literals. -/
def apos : Char := Char.ofNat 39

/-- Abstraction of a `fetch` response as seen by `downloadToFile`
(src/server.js lines 86-91): HTTP ok-flag, status code, the declared
`content-type` header (absent modelled as `none`), and the body, which we
represent as the list of data chunks together with the time gap (ms)
separating each chunk from the previous stream event, plus the gap from the
last chunk to the end-of-stream event.  Gaps model the event-timing that the
read-timeout logic of lines 94-109 observes. -/
structure FetchResponse where
  ok : Bool
  status : Nat
  contentType : Option String
  chunks : List (Nat × Nat)   -- (gap before this chunk, chunk payload size)
  endGap : Nat                -- gap between last chunk and stream end
deriving DecidableEq, Repr

/-- `(res.headers.get('content-type') || '').toLowerCase()`
(src/server.js line 75). -/
def responseCT (r : FetchResponse) : String :=
  strToLower (r.contentType.getD "")

/-- `assertContentType` (src/server.js lines 74-78): reject `text/html`
("got HTML") first, then reject content types matching none of the allowed
substrings. -/
def assertContentType (r : FetchResponse) (allowed : List String)
    (label : String) : Except String Unit :=
  let ct := responseCT r
  if strContains ct "text/html" then
    .error (label ++ ": got HTML (enlace no directo)")
  else if !(allowed.any fun s => strContains ct s) then
    .error (label ++ ": unexpected content-type " ++
             (if ct == "" then "(none)" else ct))
  else
    .ok ()

/-- Outcome of a download: the chunk payloads actually written to the
destination file, and the settlement (success or the thrown error). -/
structure DlResult where
  written : List Nat
  result : Except String Unit
deriving DecidableEq, Repr

/-- The body-streaming phase of `downloadToFile` (src/server.js lines
91-109).  A stall timer of `readTimeoutMs` is armed before the first chunk
(line 95) and re-armed on every `data` event (lines 100-106); it destroys
the streams with a read-timeout error if the next event does not arrive
within `readTimeoutMs` of the previous one.  Consequently a chunk whose gap
exceeds the timeout is never written: the transfer aborts at the first such
gap, and otherwise completes once the end-of-stream event arrives in time. -/
def streamBody (label : String) (readTimeoutMs : Nat) :
    List (Nat × Nat) → Nat → List Nat → DlResult
  | [], endGap, written =>
    if readTimeoutMs < endGap then
      ⟨written, .error (label ++ ": read timeout")⟩
    else
      ⟨written, .ok ()⟩
  | (gap, c) :: rest, endGap, written =>
    if readTimeoutMs < gap then
      ⟨written, .error (label ++ ": read timeout")⟩
    else
      streamBody label readTimeoutMs rest endGap (written ++ [c])

/-- `downloadToFile` (src/server.js lines 80-110), given the response the
`fetch` of line 86 produced: fail on a non-ok status (line 88), then
validate the content type when an allow-list was supplied (line 89), and
only then open the write stream and pipe the body through the stall-timer
logic (lines 91-109). -/
def downloadToFile (r : FetchResponse) (allowedCT : Option (List String))
    (label : String) (readTimeoutMs : Nat) : DlResult :=
  if !r.ok then
    ⟨[], .error (label ++ ": fetch failed " ++ toString r.status)⟩
  else
    match allowedCT with
    | some allowed =>
      match assertContentType r allowed label with
      | .error e => ⟨[], .error e⟩
      | .ok () => streamBody label readTimeoutMs r.chunks r.endGap []
    | none => streamBody label readTimeoutMs r.chunks r.endGap []

/-- JavaScript `s.slice(0, n)` for the truncations of lines 125 and 515. -/
def strTake (s : String) (n : Nat) : String :=
  String.mk (s.data.take n)

/-- The error object `execFile` rejects with when `ffmpeg` fails
(src/server.js lines 113-121): the `killed` flag (set by Node when the
`timeout` of line 116 expires and the process is killed with SIGKILL),
the terminating signal, the exit code, captured stderr and the generic
message. -/
structure ExecError where
  killed : Bool
  signal : Option String
  code : Option Int
  stderr : String
  message : String
deriving DecidableEq, Repr

/-- The stderr patterns of line 123:
`/Killed|Out of memory|Cannot allocate|std::bad_alloc/i`
(case-insensitivity modelled by lowering both sides). -/
def oomStderrPattern (s : String) : Bool :=
  ["killed", "out of memory", "cannot allocate", "std::bad_alloc"].any
    (fun p => strContains (strToLower s) p)

/-- The `killed` classification of lines 122-123: process killed flag,
SIGKILL signal, exit code 137, or an OOM-looking stderr. -/
def ffmpegKilled (e : ExecError) : Bool :=
  e.killed || e.signal == some "SIGKILL" || e.code == some 137 ||
    oomStderrPattern e.stderr

/-- The diagnostic thrown on the killed/OOM/timeout classification
(src/server.js line 124). -/
def oomMessage : String :=
  "ffmpeg OOM/timeout. Baja resolución/preset o sube plan."

/-- `runFfmpeg` (src/server.js lines 112-127), given the outcome of the
`execFile` invocation (`none` = exit 0): success, or the normalized error
(`oomMessage` for the killed classification, else a truncated
`ffmpeg failed:` diagnostic built from `stderr || err.message || ''`). -/
def runFfmpeg (outcome : Option ExecError) : Except String Unit :=
  match outcome with
  | none => .ok ()
  | some e =>
    if ffmpegKilled e then .error oomMessage
    else
      .error (strTake
        ("ffmpeg failed: " ++
          (if e.stderr == "" then
            (if e.message == "" then "" else e.message)
          else e.stderr)) 2000)

/-- `'subtitles'` with the surrounding single quotes, as written in the
regex of src/server.js line 501. -/
def subsQuoted : List Char :=
  apos :: "subtitles".data ++ [apos]

/-- JavaScript regex `\s` on the ASCII range (space, tab, LF, CR, VT, FF). -/
def jsWhitespace (c : Char) : Bool :=
  c == ' ' || c == Char.ofNat 9 || c == Char.ofNat 10 || c == Char.ofNat 13 ||
    c == Char.ofNat 11 || c == Char.ofNat 12

/-- Does `no such filter:` followed by optional whitespace and
`'subtitles'` match at this position? (first alternative of the regex at
src/server.js line 501, both sides lowered). -/
def nsfSubtitlesAt (l : List Char) : Bool :=
  "no such filter:".data.isPrefixOf l &&
    subsQuoted.isPrefixOf
      ((l.drop "no such filter:".data.length).dropWhile jsWhitespace)

/-- Scan the whole message for the `no such filter: 'subtitles'` shape. -/
def nsfSubtitlesScan : List Char → Bool
  | [] => nsfSubtitlesAt []
  | c :: rest => nsfSubtitlesAt (c :: rest) || nsfSubtitlesScan rest

/-- `looksLikeSubs` (src/server.js lines 499-501): the failure-message
patterns that identify a subtitles-related ffmpeg failure,
`/No such filter:\s*'subtitles'|libass|Fontconfig|Could not find font|subtitles filter/i`. -/
def looksLikeSubs (msg : String) : Bool :=
  nsfSubtitlesScan (strToLower msg).data ||
    ["libass", "fontconfig", "could not find font", "subtitles filter"].any
      (fun p => strContains (strToLower msg) p)

/-- The composite diagnostic thrown when the retry without subtitles also
fails (src/server.js line 515). -/
def subsRetryFailMessage (firstMsg secondMsg : String) : String :=
  "ffmpeg (sin subtítulos) también falló.\nPrimero: " ++ strTake firstMsg 800 ++
    "\nSegundo: " ++ strTake secondMsg 800

/-- The try/catch around the two transcode attempts of `doRenderOnce`
(src/server.js lines 495-521): the first attempt runs with the
subtitles-enabled filter chain; on failure, if subtitles were enabled and
the message matches the subtitle-failure patterns, the transcode is retried
exactly once with the filter chain rebuilt without subtitles (line 505),
and a second failure raises the composite diagnostic; any other failure is
propagated unchanged.  `first`/`second` are the settlements of the two
`runFfmpeg` invocations. -/
def renderAttemptOutcome (first : Except String Unit) (subsEnabled : Bool)
    (second : Except String Unit) : Except String Unit :=
  match first with
  | .ok () => .ok ()
  | .error msg =>
    if subsEnabled && looksLikeSubs msg then
      match second with
      | .ok () => .ok ()
      | .error m2 => .error (subsRetryFailMessage msg m2)
    else .error msg

/-- JavaScript `Math.round` on an exact decimal: floor of `q + 1/2`. -/
def jsRound (q : ℚ) : ℤ := ⌊q + (1 : ℚ) / 2⌋

/-- Resampling flags of the cover-fit `scale` stage: variant 1 selects
`flags=fast_bilinear` (line 379), variant 2 leaves the encoder default
(line 1055). -/
inductive ScaleFlags
  | fastBilinear
  | defaultFlags
deriving DecidableEq, Repr

/-- One stage of the video filter chain, a typed rendering of the strings
pushed onto `vf`.  Constructors record the parameters interpolated into the
corresponding ffmpeg filter expression. -/
inductive VFilter
  /-- `hflip` -/
  | hflip
  /-- `crop=iw/z:ih/z` (variant 1 pre-zoom, line 372) -/
  | cropByFactor (z : ℚ)
  /-- `scale=iw*z:ih*z` (variant 2 pre-zoom, line 1050) -/
  | scaleByFactor (z : ℚ)
  /-- `crop=iw:ih` (variant 2, line 1051) -/
  | cropSame
  /-- `rotate=deg*PI/180` with optional `fillcolor` -/
  | rotate (deg : ℚ) (fillcolor : Option String)
  /-- `eq=contrast=c:brightness=b:saturation=s` -/
  | eqAdjust (contrast brightness saturation : ℚ)
  /-- `unsharp=luma_msize_x=5:luma_msize_y=5:luma_amount=a` -/
  | unsharp (amount : ℚ)
  /-- `scale=w:h:force_original_aspect_ratio=increase[:flags]` -/
  | coverScale (w h : ℕ) (flags : ScaleFlags)
  /-- `crop=w:h` -/
  | cropTo (w h : ℕ)
  /-- `subtitles=...` burn-in with the computed style numbers -/
  | subtitles (w h fontsize marginV marginL marginR : ℕ)
      (font : String) (primaryColour : Option String)
deriving DecidableEq, Repr

/-- The render configuration constants consumed by a filter chain
(variant 1: src/server.js lines 26-48; variant 2: lines 574-594). -/
structure RenderConfig where
  targetW : ℕ
  targetH : ℕ
  mirror : Bool
  preZoom : ℚ
  rotateDeg : ℚ
  contrast : ℚ
  brightness : ℚ
  saturation : ℚ
  sharpen : ℚ
  subsFont : String
deriving DecidableEq, Repr

/-- Variant 1 configuration (src/server.js lines 26-34, 48) with
`TARGET_W`/`TARGET_H` environment overrides and the source defaults for
the remaining effect constants. -/
def renderConfig1 (envW envH : Option ℕ) : RenderConfig :=
  ⟨envW.getD 1080, envH.getD 1920, true, 1.12, 0, 1.15, 0.05, 1.1, 0, "Arial"⟩

/-- Variant 2 configuration (src/server.js lines 574-584): default canvas
lowered to 720x1280 to save RAM, effect constants static. -/
def renderConfig2 (envW envH : Option ℕ) : RenderConfig :=
  ⟨envW.getD 720, envH.getD 1280, true, 1.12, 0, 1.15, 0.05, 1.1, 0,
    "DejaVu Sans"⟩

/-- Subtitle style numbers (src/server.js lines 383-386 and 1059-1062):
`FS = max(6, round(6*(H/1080)))`, `ML = MR = round(W*0.04)`,
`MV = round(H*0.05)`. -/
def subsFontsize (h : ℕ) : ℕ := max 6 (jsRound (6 * ((h : ℚ) / 1080))).toNat

def subsMarginL (w : ℕ) : ℕ := (jsRound ((w : ℚ) * 0.04)).toNat

def subsMarginV (h : ℕ) : ℕ := (jsRound ((h : ℚ) * 0.05)).toNat

/-- `buildVideoFilters` (src/server.js lines 368-401): the variant-1 chain.
The pre-zoom is expressed as a direct crop-by-factor (line 372), the
cover-fit selects the cheap `fast_bilinear` resampler (line 379), and the
subtitle stage is emitted only when `subsEnabled && srtPath` (line 382). -/
def buildVideoFilters (cfg : RenderConfig) (srtPath : Option String)
    (subsEnabled : Bool) : List VFilter :=
  (if cfg.mirror then [VFilter.hflip] else []) ++
  (if cfg.preZoom ≠ 0 ∧ cfg.preZoom ≠ 1 then
    [VFilter.cropByFactor cfg.preZoom] else []) ++
  (if cfg.rotateDeg ≠ 0 then
    [VFilter.rotate cfg.rotateDeg (some "black")] else []) ++
  (if cfg.contrast ≠ 1 ∨ cfg.brightness ≠ 0 ∨ cfg.saturation ≠ 1 then
    [VFilter.eqAdjust cfg.contrast cfg.brightness cfg.saturation] else []) ++
  (if 0 < cfg.sharpen then [VFilter.unsharp cfg.sharpen] else []) ++
  [VFilter.coverScale cfg.targetW cfg.targetH ScaleFlags.fastBilinear,
   VFilter.cropTo cfg.targetW cfg.targetH] ++
  (if subsEnabled && srtPath.isSome then
    [VFilter.subtitles cfg.targetW cfg.targetH (subsFontsize cfg.targetH)
      (subsMarginV cfg.targetH) (subsMarginL cfg.targetW)
      (subsMarginL cfg.targetW) cfg.subsFont none]
  else [])

/-- The inline video filter chain of the variant-2 `doRenderOnce`
(src/server.js lines 1048-1075): the pre-zoom is expressed as an upscale
(line 1050) followed by a crop (line 1051), the colour adjustment is
unconditional (line 1053), the cover-fit uses the default resampler
(line 1055), and the subtitle stage (hardcoded DejaVu Sans with an explicit
primary colour) is gated only on the subtitle file being present
(line 1058). -/
def doRenderOnceVideoFilters (cfg : RenderConfig) (srtPath : Option String) :
    List VFilter :=
  (if cfg.mirror then [VFilter.hflip] else []) ++
  (if cfg.preZoom ≠ 1 then [VFilter.scaleByFactor cfg.preZoom] else []) ++
  [VFilter.cropSame] ++
  (if cfg.rotateDeg ≠ 0 then [VFilter.rotate cfg.rotateDeg none] else []) ++
  [VFilter.eqAdjust cfg.contrast cfg.brightness cfg.saturation] ++
  (if 0 < cfg.sharpen then [VFilter.unsharp cfg.sharpen] else []) ++
  [VFilter.coverScale cfg.targetW cfg.targetH ScaleFlags.defaultFlags,
   VFilter.cropTo cfg.targetW cfg.targetH] ++
  (if srtPath.isSome then
    [VFilter.subtitles cfg.targetW cfg.targetH (subsFontsize cfg.targetH)
      (subsMarginV cfg.targetH) (subsMarginL cfg.targetW)
      (subsMarginL cfg.targetW) "DejaVu Sans" (some "&H00FFFFFF&")]
  else [])

/-- The output resolution of a filter chain: the target of its last
`crop=w:h` stage (both chains end in cover-fit + crop to the target
canvas; the optional subtitle burn-in does not change the resolution). -/
def outputResolution (vf : List VFilter) : Option (ℕ × ℕ) :=
  (vf.filterMap fun s =>
    match s with
    | .cropTo w h => some (w, h)
    | _ => none).getLast?

/-- The request-parameter snapshot stored on a job (destructured from the
POST body at src/server.js lines 290-295 and stored at lines 300-304). -/
structure RenderParams where
  video_url : Option String
  audio_url : Option String
  srt_url : Option String
  bgm_url : Option String
  bgm_volume : Option ℚ
  duck : Option Bool
  duck_threshold : Option ℚ
  duck_ratio : Option ℚ
  duck_attack_ms : Option ℚ
  duck_release_ms : Option ℚ
  bgm_offset_sec : Option ℚ
deriving DecidableEq, Repr

/-- Job lifecycle states (src/server.js lines 169, 190, 206, 210). -/
inductive JobStatus
  | queued
  | processing
  | done
  | error
deriving DecidableEq, Repr

/-- One record of the in-memory `JOBS` map (src/server.js lines 166-175). -/
structure Job where
  id : String
  status : JobStatus
  outPath : String
  error : Option String
  createdAt : Nat
  updatedAt : Nat
  doneAt : Option Nat
  params : RenderParams
deriving DecidableEq, Repr

/-- `OUT_DIR = join(tmpdir(), 'renders_async')` (src/server.js line 61);
the machine-dependent tmpdir prefix is abstracted to a fixed string. -/
def OUT_DIR : String := "/tmp/renders_async"

/-- The deterministic output location `join(OUT_DIR, id + '.mp4')`
(src/server.js lines 169, 323, 346). -/
def outPathFor (id : String) : String := OUT_DIR ++ "/" ++ id ++ ".mp4"

/-- Scheduler state: the `JOBS` map (in insertion order, as a JavaScript
`Map` iterates) and the `RUNNING` counter (src/server.js lines 161-162). -/
structure SchedState where
  jobs : List Job
  running : Nat
deriving DecidableEq, Repr

/-- The fresh job record built by `enqueueRender`
(src/server.js lines 166-175). -/
def mkJob (id : String) (now : Nat) (params : RenderParams) : Job :=
  ⟨id, .queued, outPathFor id, none, now, now, none, params⟩

/-- `enqueueRender` (src/server.js lines 164-178), with the freshly
generated UUID and the current time passed explicitly; the deferred
`setImmediate(maybeRun)` of line 176 is modelled as a separate `dispatch`
step of the transition relation. -/
def enqueueRender (st : SchedState) (id : String) (now : Nat)
    (params : RenderParams) : SchedState :=
  { st with jobs := st.jobs ++ [mkJob id now params] }

/-- `nextQueued` (src/server.js lines 180-183): the first job, in
insertion order, whose status is `queued`. -/
def nextQueued (jobs : List Job) : Option Job :=
  jobs.find? (fun j => j.status == .queued)

/-- In-place mutation of the record with the given id inside the `JOBS`
map, rendered as a pure list update. -/
def updateJob (jobs : List Job) (id : String) (f : Job → Job) : List Job :=
  jobs.map (fun j => if j.id == id then f j else j)

/-- `maybeRun` (src/server.js lines 185-200): do nothing when
`RUNNING >= MAX_CONCURRENCY` or no queued job exists; otherwise mark the
first queued job `processing`, refresh its `updatedAt`, and increment
`RUNNING`.  The eventual settlement of the launched `processJob` promise is
the separate `settle` step. -/
def maybeRun (st : SchedState) (maxConc : Nat) (now : Nat) : SchedState :=
  if maxConc ≤ st.running then st
  else
    match nextQueued st.jobs with
    | none => st
    | some j =>
      { jobs := updateJob st.jobs j.id
          (fun x => { x with status := .processing, updatedAt := now }),
        running := st.running + 1 }

/-- The terminal update `processJob` applies when the raced render promise
settles (src/server.js lines 205-211): `done` with `doneAt` refreshed on
success, `error` with the stringified diagnostic on failure. -/
def settleJob (j : Job) (outcome : Option String) (now : Nat) : Job :=
  match outcome with
  | none => { j with status := .done, updatedAt := now, doneAt := some now }
  | some e => { j with status := .error, error := some e, updatedAt := now }

/-- The `.finally` of the launched job (src/server.js lines 196-199)
composed with the `processJob` settlement: record the outcome on the job,
decrement `RUNNING`, and re-run the dispatcher. -/
def completeJob (st : SchedState) (id : String) (outcome : Option String)
    (now : Nat) (maxConc : Nat) : SchedState :=
  maybeRun
    { jobs := updateJob st.jobs id (fun x => settleJob x outcome now),
      running := st.running - 1 }
    maxConc now

/-- Error-record eviction window, `10 * 60_000` ms
(src/server.js line 230). -/
def ERROR_EVICT_MS : Nat := 10 * 60000

/-- Default `OUTPUT_TTL_MS`, `30 * 60_000` ms (src/server.js line 58). -/
def OUTPUT_TTL_MS_DEFAULT : Nat := 30 * 60000

/-- The done-branch guard of the cleanup interval (src/server.js line
227): `job.status === 'done' && job.doneAt && now - job.doneAt >
OUTPUT_TTL_MS` (the truthiness test on `doneAt` excludes 0). -/
def evictDone (ttl now : Nat) (j : Job) : Bool :=
  j.status == .done &&
    (match j.doneAt with
     | some d => !(d == 0) && decide (ttl < now - d)
     | none => false)

/-- The error-branch guard of the cleanup interval (src/server.js line
230): `job.status === 'error' && now - job.updatedAt > 10 * 60_000`. -/
def evictError (now : Nat) (j : Job) : Bool :=
  j.status == .error && decide (ERROR_EVICT_MS < now - j.updatedAt)

/-- The `JOBS.delete` effect of one pass of the cleanup interval
(src/server.js lines 224-234). -/
def cleanupJobs (ttl now : Nat) (jobs : List Job) : List Job :=
  jobs.filter (fun j => !(evictDone ttl now j || evictError now j))

/-- One scheduler transition: a new submission (fresh UUID), a dispatcher
pass (`setImmediate` of line 176, the `setInterval(maybeRun, 1000)` of
line 551, or the listen callback of line 549), the settlement of a
launched job, or a cleanup pass. -/
inductive SchedStep (maxConc : Nat) : SchedState → SchedState → Prop
  | enqueue (st : SchedState) (id : String) (now : Nat)
      (params : RenderParams) (fresh : ∀ j ∈ st.jobs, j.id ≠ id) :
      SchedStep maxConc st (enqueueRender st id now params)
  | dispatch (st : SchedState) (now : Nat) :
      SchedStep maxConc st (maybeRun st maxConc now)
  | settle (st : SchedState) (j : Job) (outcome : Option String) (now : Nat)
      (hmem : j ∈ st.jobs) (hproc : j.status = .processing) :
      SchedStep maxConc st (completeJob st j.id outcome now maxConc)
  | sweep (st : SchedState) (ttl now : Nat) :
      SchedStep maxConc st ⟨cleanupJobs ttl now st.jobs, st.running⟩

/-- The empty scheduler at process start (src/server.js lines 161-162). -/
def initialState : SchedState := ⟨[], 0⟩

/-- States the scheduler can reach from process start. -/
def Reachable (maxConc : Nat) (st : SchedState) : Prop :=
  Relation.ReflTransGen (SchedStep maxConc) initialState st

/-- Number of jobs currently in the `processing` state. -/
def pcount (jobs : List Job) : Nat :=
  (jobs.filter (fun j => j.status == .processing)).length

/-- The scheduler invariant: job ids are unique (`randomUUID`), `RUNNING`
equals the number of processing jobs, and `RUNNING` never exceeds the
concurrency bound. -/
def SchedInv (maxConc : Nat) (st : SchedState) : Prop :=
  (st.jobs.map Job.id).Nodup ∧ st.running = pcount st.jobs ∧
    st.running ≤ maxConc

/-- A fixed parameter record used by concrete witnesses. -/
def sampleParams : RenderParams :=
  ⟨some "http://example/v.mp4", some "http://example/a.mp3",
    none, none, none, none, none, none, none, none, none⟩

/-- The legal evolutions of a job's `status` field:
`queued -> processing -> done | error`, and terminal states absorb. -/
def allowedTransition : JobStatus → JobStatus → Prop
  | .queued, s => s = .queued ∨ s = .processing
  | .processing, s => s = .processing ∨ s = .done ∨ s = .error
  | .done, s => s = .done
  | .error, s => s = .error

/-- The JavaScript truthiness test applied to the required string fields at
src/server.js line 297 (`!video_url || !audio_url`): an absent field and an
empty string are both falsy. -/
def truthyStr : Option String → Bool
  | none => false
  | some s => !(s == "")

/-- The two responses of the submission route: 400 with the validation
message (line 298), or 202 with the new job id and its derived status and
artifact URLs (lines 307-311). -/
inductive SubmitResponse
  | badRequest (msg : String)
  | accepted (id : String)
deriving DecidableEq, Repr

/-- `POST /render` (src/server.js lines 288-315): reject when either
required URL is missing, without touching the queue; otherwise enqueue the
full parameter snapshot under a fresh UUID and answer immediately — the
enqueued job starts `queued` and is only admitted by a later dispatcher
pass. -/
def postRender (st : SchedState) (body : RenderParams) (freshId : String)
    (now : Nat) : SubmitResponse × SchedState :=
  if !(truthyStr body.video_url) || !(truthyStr body.audio_url) then
    (.badRequest "video_url and audio_url required", st)
  else
    (.accepted freshId, enqueueRender st freshId now body)

/-- Discrete-time model of one admitted job's render attempt as launched by
`processJob` (src/server.js lines 202-215).  `withJobTimeout` (lines
217-221) races the `doRenderOnce(job)` promise against a timer via
`Promise.race`, which never cancels the losing promise: when the timer wins
the job is marked `error` while `doRenderOnce` keeps executing and performs
its remaining file effects when it eventually settles.  `settleAt` is the
time at which `doRenderOnce` settles, `succeeds` its outcome, and `files`
the intermediate paths it records (downloaded video `inV`, narration `inA`,
optional `srtPath`/`bgmPath`; lines 411-431).  Both the success path (lines
523-527) and the catch path (lines 529-534) of `doRenderOnce` delete every
intermediate exactly when it settles, and only the catch path deletes the
output (line 533). -/
structure RenderExec where
  settleAt : Nat
  succeeds : Bool
  files : List String
deriving DecidableEq, Repr

/-- The time the job enters its terminal state: `doRenderOnce` settling or
the job timer firing, whichever happens first (src/server.js lines 205,
217-221). -/
def terminalAt (e : RenderExec) (jobTimeoutMs : Nat) : Nat :=
  min e.settleAt jobTimeoutMs

/-- The terminal status `processJob` records (src/server.js lines 205-211):
`done` only when the render settles successfully before the timer fires,
`error` on a render failure or on the `render job timeout` rejection. -/
def finalStatus (e : RenderExec) (jobTimeoutMs : Nat) : JobStatus :=
  if e.settleAt ≤ jobTimeoutMs then
    (if e.succeeds then .done else .error)
  else .error

/-- Whether the recorded intermediate `f` is still on disk at time `t`:
present from the start of the attempt, deleted when `doRenderOnce` settles
(src/server.js lines 523-527 and 529-532), regardless of whether the job
record is already terminal. -/
def intermediatePresentAt (e : RenderExec) (f : String) (t : Nat) : Bool :=
  e.files.contains f && decide (t < e.settleAt)

/-- Whether the output artifact is on disk at time `t`: on success ffmpeg
has written `job.outPath` by settle time and no path of `doRenderOnce`
removes it afterwards; on failure the catch path deletes it
(src/server.js line 533). -/
def outputPresentAt (e : RenderExec) (t : Nat) : Bool :=
  e.succeeds && decide (e.settleAt ≤ t)

/-- The `rm(job.outPath, force)` effect of one cleanup pass (src/server.js
line 228): the output files of done jobs past their TTL are removed from
the filesystem (`fs`, the set of on-disk paths); error-record eviction
(line 231) removes no file. -/
def cleanupFs (ttl now : Nat) (jobs : List Job) (fs : List String) :
    List String :=
  fs.filter (fun p =>
    !(jobs.any (fun j => evictDone ttl now j && j.outPath == p)))

/-- Responses of the artifact route (src/server.js lines 344-363). -/
inductive VideoResp
  | ok200
  | err500 (e : Option String)
  | notReady425
  | notFound404
deriving DecidableEq, Repr

/-- `GET /render/:id/video` (src/server.js lines 344-363): with a live job
record, `error` answers 500 with the stored diagnostic, any non-`done`
state answers 425; otherwise the route stats `join(OUT_DIR, id + '.mp4')`
and streams it, answering 404 when the stat fails.  Without a record the
stat alone decides (a surviving on-disk artifact is served as if done). -/
def getVideo (jobs : List Job) (fs : List String) (id : String) : VideoResp :=
  match jobs.find? (fun j => j.id == id) with
  | some j =>
    if j.status == .error then .err500 j.error
    else if !(j.status == .done) then .notReady425
    else if fs.contains (outPathFor id) then .ok200 else .notFound404
  | none => if fs.contains (outPathFor id) then .ok200 else .notFound404

/-- A completed job record used by the retention witness. -/
def sampleDoneJob : Job :=
  ⟨"vid-1", .done, outPathFor "vid-1", none, 100, 100, some 100, sampleParams⟩

-- ======================================================
-- Theorems
-- ======================================================

-- =========================

theorem streamBody_ok_iff (label : String) (T : Nat) :
    ∀ (chunks : List (Nat × Nat)) (endGap : Nat) (acc : List Nat),
      (streamBody label T chunks endGap acc).result = .ok () ↔
        ((∀ p ∈ chunks, p.1 ≤ T) ∧ endGap ≤ T) := by
  intro chunks
  induction chunks with
  | nil =>
    intro endGap acc
    by_cases hg : T < endGap
    · simp [streamBody, hg]
    · simp [streamBody, hg]; omega
  | cons hd tl ih =>
    intro endGap acc
    obtain ⟨gap, c⟩ := hd
    by_cases hg : T < gap
    · simp only [streamBody, if_pos hg]
      constructor
      · intro h; cases h
      · intro h
        have := h.1 (gap, c) (List.mem_cons_self _ _)
        omega
    · simp only [streamBody, if_neg hg, ih, List.forall_mem_cons]
      constructor
      · intro h
        exact ⟨⟨by omega, h.1⟩, h.2⟩
      · intro h
        exact ⟨h.1.2, h.2⟩

theorem streamBody_error_msg (label : String) (T : Nat) :
    ∀ (chunks : List (Nat × Nat)) (endGap : Nat) (acc : List Nat),
      (streamBody label T chunks endGap acc).result ≠ .ok () →
      (streamBody label T chunks endGap acc).result =
        .error (label ++ ": read timeout") := by
  intro chunks
  induction chunks with
  | nil =>
    intro endGap acc h
    by_cases hg : T < endGap
    · simp [streamBody, hg]
    · exfalso; apply h; simp [streamBody, hg]
  | cons hd tl ih =>
    intro endGap acc h
    obtain ⟨gap, c⟩ := hd
    by_cases hg : T < gap
    · simp [streamBody, hg]
    · simp only [streamBody, if_neg hg] at h ⊢
      exact ih endGap _ h

/-- **C6.** For every asset fetch whose response declares a content type
containing `text/html`, the download fails — with the distinct
`got HTML` diagnostic whenever the HTTP status was ok — before any body
bytes are written to the destination, and never silently proceeds. -/
theorem html_response_always_rejected (r : FetchResponse)
    (allowed : List String) (label : String) (T : Nat)
    (hhtml : strContains (responseCT r) "text/html" = true) :
    (downloadToFile r (some allowed) label T).written = [] ∧
    (downloadToFile r (some allowed) label T).result ≠ .ok () ∧
    (r.ok = true →
      (downloadToFile r (some allowed) label T).result =
        .error (label ++ ": got HTML (enlace no directo)")) := by
  by_cases hok : r.ok
  · refine ⟨?_, ?_, fun _ => ?_⟩ <;>
      simp [downloadToFile, hok, assertContentType, hhtml]
  · have hok2 : r.ok = false := by simpa using hok
    refine ⟨?_, ?_, fun h => absurd h (by simp [hok2])⟩ <;>
      simp [downloadToFile, hok2]

/-- Witness for `html_response_always_rejected` at a concrete HTML
response. -/
theorem html_response_always_rejected_witness :
    (downloadToFile
        ⟨true, 200, some "text/html; charset=utf-8", [(1, 7)], 1⟩
        (some ["video", "mp4"]) "video_url" 5).written = [] ∧
    (downloadToFile
        ⟨true, 200, some "text/html; charset=utf-8", [(1, 7)], 1⟩
        (some ["video", "mp4"]) "video_url" 5).result =
      .error ("video_url" ++ ": got HTML (enlace no directo)") := by
  refine ⟨?_, ?_⟩
  · exact (html_response_always_rejected
      ⟨true, 200, some "text/html; charset=utf-8", [(1, 7)], 1⟩
      ["video", "mp4"] "video_url" 5 (by decide)).1
  · exact (html_response_always_rejected
      ⟨true, 200, some "text/html; charset=utf-8", [(1, 7)], 1⟩
      ["video", "mp4"] "video_url" 5 (by decide)).2.2 rfl

/-- **C7.** In `downloadToFile` the read timeout is measured from the last
received chunk, not from the start of the transfer: the stall timer is
re-armed on every chunk, so a transfer whose response passed the status and
content-type checks completes exactly when every inter-event gap is within
`readTimeoutMs` (regardless of the total transfer duration), and otherwise
aborts with the read-timeout error. -/
theorem read_timeout_measured_from_last_chunk (r : FetchResponse)
    (allowed : List String) (label : String) (T : Nat)
    (hok : r.ok = true)
    (hct : assertContentType r allowed label = .ok ()) :
    ((downloadToFile r (some allowed) label T).result = .ok () ↔
      ((∀ p ∈ r.chunks, p.1 ≤ T) ∧ r.endGap ≤ T)) ∧
    (¬ ((∀ p ∈ r.chunks, p.1 ≤ T) ∧ r.endGap ≤ T) →
      (downloadToFile r (some allowed) label T).result =
        .error (label ++ ": read timeout")) := by
  have hdl : downloadToFile r (some allowed) label T =
      streamBody label T r.chunks r.endGap [] := by
    simp only [downloadToFile, hok, Bool.not_true, Bool.false_eq_true,
      if_false, hct]
  rw [hdl]
  refine ⟨streamBody_ok_iff label T r.chunks r.endGap [], fun hnot => ?_⟩
  apply streamBody_error_msg
  intro hok2
  exact hnot ((streamBody_ok_iff label T r.chunks r.endGap []).mp hok2)

/-- Witness for `read_timeout_measured_from_last_chunk`: a transfer whose
total duration (16 ms) far exceeds the 5 ms stall timeout completes because
every individual gap is within the timeout; a transfer with one 9 ms gap
aborts with the read-timeout diagnostic. -/
theorem read_timeout_measured_from_last_chunk_witness :
    (downloadToFile ⟨true, 200, some "video/mp4", [(3, 1), (4, 2), (4, 3)], 5⟩
        (some ["video"]) "video_url" 5).result = .ok () ∧
    (downloadToFile ⟨true, 200, some "video/mp4", [(3, 1), (9, 2)], 1⟩
        (some ["video"]) "video_url" 5).result =
      .error ("video_url" ++ ": read timeout") := by
  constructor
  · exact (read_timeout_measured_from_last_chunk
      ⟨true, 200, some "video/mp4", [(3, 1), (4, 2), (4, 3)], 5⟩
      ["video"] "video_url" 5 rfl (by decide)).1.mpr (by decide)
  · exact (read_timeout_measured_from_last_chunk
      ⟨true, 200, some "video/mp4", [(3, 1), (9, 2)], 1⟩
      ["video"] "video_url" 5 rfl (by decide)).2 (by decide)

/-- **C1 counterexample.** A primary attempt that fails with the
ResourceExhausted classification (process killed) while a retry is
available and would succeed is *not* retried: the job errors with the OOM
diagnostic even though `subsEnabled` (the only retry gate in the code) is
true and the second attempt would have returned ok. -/
theorem resource_exhausted_not_retried :
    renderAttemptOutcome (runFfmpeg (some ⟨true, none, none, "", ""⟩))
        true (.ok ()) = .error oomMessage ∧
    renderAttemptOutcome (runFfmpeg (some ⟨true, none, none, "", ""⟩))
        true (.ok ()) ≠ .ok () := by
  constructor
  · decide
  · decide

/-- **C1 (amended).** The single retry of `doRenderOnce` is triggered by a
subtitles-related failure of the primary attempt (with subtitles enabled),
never by the ResourceExhausted classification: a killed/OOM/timeout primary
failure is terminal with the OOM diagnostic no matter whether a retry is
available; a subtitles-pattern failure with subtitles enabled is retried
exactly once, the job succeeding or failing with the composite diagnostic
according to that one retry; every other failure propagates unchanged. -/
theorem primary_failure_retry_policy (e : ExecError) (subsEnabled : Bool)
    (second : Except String Unit) (msg m2 : String) :
    (ffmpegKilled e = true →
      renderAttemptOutcome (runFfmpeg (some e)) subsEnabled second =
        .error oomMessage) ∧
    (looksLikeSubs msg = true →
      renderAttemptOutcome (.error msg) true (.ok ()) = .ok ()) ∧
    (looksLikeSubs msg = true →
      renderAttemptOutcome (.error msg) true (.error m2) =
        .error (subsRetryFailMessage msg m2)) ∧
    ((subsEnabled && looksLikeSubs msg) = false →
      renderAttemptOutcome (.error msg) subsEnabled second = .error msg) := by
  refine ⟨fun hk => ?_, fun hs => ?_, fun hs => ?_, fun hns => ?_⟩
  · have h1 : runFfmpeg (some e) = .error oomMessage := by
      simp [runFfmpeg, hk]
    rw [h1]
    have h2 : looksLikeSubs oomMessage = false := by decide
    simp [renderAttemptOutcome, h2]
  · simp [renderAttemptOutcome, hs]
  · simp [renderAttemptOutcome, hs]
  · simp [renderAttemptOutcome, hns]

/-- Witness for `primary_failure_retry_policy` at concrete errors: an
`ffmpeg` invocation killed by signal, a missing-subtitles-filter failure,
and a generic failure. -/
theorem primary_failure_retry_policy_witness :
    renderAttemptOutcome
        (runFfmpeg (some ⟨false, some "SIGKILL", none, "", ""⟩)) true (.ok ()) =
      .error oomMessage ∧
    renderAttemptOutcome (.error "libass not found") true (.ok ()) = .ok () ∧
    renderAttemptOutcome (.error "some other failure") true (.ok ()) =
      .error "some other failure" := by
  refine ⟨?_, ?_, ?_⟩
  · exact (primary_failure_retry_policy ⟨false, some "SIGKILL", none, "", ""⟩
      true (.ok ()) "" "").1 (by decide)
  · exact (primary_failure_retry_policy ⟨false, none, none, "", ""⟩
      true (.ok ()) "libass not found" "").2.1 (by decide)
  · exact (primary_failure_retry_policy ⟨false, none, none, "", ""⟩
      true (.ok ()) "some other failure" "").2.2.2 (by decide)

theorem outputResolution_buildVideoFilters (cfg : RenderConfig)
    (srtPath : Option String) (subsEnabled : Bool) :
    outputResolution (buildVideoFilters cfg srtPath subsEnabled) =
      some (cfg.targetW, cfg.targetH) := by
  unfold outputResolution buildVideoFilters
  split_ifs <;> simp [List.filterMap_append]

theorem outputResolution_doRenderOnceVideoFilters (cfg : RenderConfig)
    (srtPath : Option String) :
    outputResolution (doRenderOnceVideoFilters cfg srtPath) =
      some (cfg.targetW, cfg.targetH) := by
  unfold outputResolution doRenderOnceVideoFilters
  split_ifs <;> simp [List.filterMap_append]

theorem mem_cropByFactor_buildVideoFilters (envW envH : Option ℕ)
    (srtPath : Option String) (subsEnabled : Bool) :
    VFilter.cropByFactor 1.12 ∈
      buildVideoFilters (renderConfig1 envW envH) srtPath subsEnabled := by
  have h : ((1.12 : ℚ) ≠ 0 ∧ (1.12 : ℚ) ≠ 1) := by norm_num
  simp [buildVideoFilters, renderConfig1, h]

theorem no_scaleByFactor_buildVideoFilters (envW envH : Option ℕ)
    (srtPath : Option String) (subsEnabled : Bool) (z : ℚ) :
    VFilter.scaleByFactor z ∉
      buildVideoFilters (renderConfig1 envW envH) srtPath subsEnabled := by
  have h : ((1.12 : ℚ) ≠ 0 ∧ (1.12 : ℚ) ≠ 1) := by norm_num
  have h2 : ((1.15 : ℚ) ≠ 1 ∨ (0.05 : ℚ) ≠ 0 ∨ (1.1 : ℚ) ≠ 1) := by norm_num
  have h3 : ¬((0 : ℚ) < 0) := by norm_num
  have h4 : ¬((0 : ℚ) ≠ 0) := by norm_num
  cases srtPath <;> cases subsEnabled <;>
    simp [buildVideoFilters, renderConfig1, h, h2, h3, h4]

theorem take3_doRenderOnceVideoFilters (envW envH : Option ℕ)
    (srtPath : Option String) :
    (doRenderOnceVideoFilters (renderConfig2 envW envH) srtPath).take 3 =
      [VFilter.hflip, VFilter.scaleByFactor 1.12, VFilter.cropSame] := by
  have h : ((1.12 : ℚ) ≠ 1) := by norm_num
  simp [doRenderOnceVideoFilters, renderConfig2, h]

theorem no_cropByFactor_doRenderOnceVideoFilters (envW envH : Option ℕ)
    (srtPath : Option String) (z : ℚ) :
    VFilter.cropByFactor z ∉
      doRenderOnceVideoFilters (renderConfig2 envW envH) srtPath := by
  have h : ((1.12 : ℚ) ≠ 1) := by norm_num
  have h3 : ¬((0 : ℚ) < 0) := by norm_num
  have h4 : ¬((0 : ℚ) ≠ 0) := by norm_num
  cases srtPath <;> simp [doRenderOnceVideoFilters, renderConfig2, h, h3, h4]

/-- **C5 counterexample.** Identifying the two modes by the claim's own
description of their pre-zoom stages — the crop-by-factor chain is
`buildVideoFilters` (variant 1) and the upscale-then-crop chain is the
variant-2 `doRenderOnce` chain — the resolution comparison of the claim
fails at the default configuration: the crop-by-factor ("fallback") chain
targets 1080x1920 while the upscale-then-crop ("primary") chain targets
only 720x1280, so the former's output resolution is strictly larger, not
less than or equal. -/
theorem fallback_resolution_not_smaller :
    outputResolution (buildVideoFilters (renderConfig1 none none) none false) =
      some (1080, 1920) ∧
    outputResolution
        (doRenderOnceVideoFilters (renderConfig2 none none) none) =
      some (720, 1280) ∧
    VFilter.cropByFactor 1.12 ∈
      buildVideoFilters (renderConfig1 none none) none false ∧
    VFilter.scaleByFactor 1.12 ∈
      doRenderOnceVideoFilters (renderConfig2 none none) none ∧
    ¬(1080 * 1920 ≤ 720 * 1280) := by
  refine ⟨?_, ?_, ?_, ?_, ?_⟩
  · exact outputResolution_buildVideoFilters _ _ _
  · exact outputResolution_doRenderOnceVideoFilters _ _
  · exact mem_cropByFactor_buildVideoFilters none none none false
  · have := take3_doRenderOnceVideoFilters none none none
    have hmem : VFilter.scaleByFactor 1.12 ∈
        (doRenderOnceVideoFilters (renderConfig2 none none) none).take 3 := by
      rw [this]; simp
    exact List.mem_of_mem_take hmem
  · decide

/-- **C5 (amended).** For every target-canvas override and every subtitle
setting, the crop-by-factor chain (`buildVideoFilters`, variant 1)
expresses its pre-zoom as a direct crop and contains no upscale stage,
while the variant-2 chain opens with mirror, upscale-by-factor, crop — an
upscale-then-crop pre-zoom — and contains no crop-by-factor stage; each
chain's output resolution is its own configured target canvas, whose
defaults are 1080x1920 for the crop chain and 720x1280 for the upscale
chain, so the crop ("fallback") chain's default resolution is the larger
of the two rather than the smaller. -/
theorem prezoom_crop_vs_scale (envW envH : Option ℕ) (srtPath : Option String)
    (subsEnabled : Bool) :
    VFilter.cropByFactor 1.12 ∈
      buildVideoFilters (renderConfig1 envW envH) srtPath subsEnabled ∧
    (∀ z, VFilter.scaleByFactor z ∉
      buildVideoFilters (renderConfig1 envW envH) srtPath subsEnabled) ∧
    (doRenderOnceVideoFilters (renderConfig2 envW envH) srtPath).take 3 =
      [VFilter.hflip, VFilter.scaleByFactor 1.12, VFilter.cropSame] ∧
    (∀ z, VFilter.cropByFactor z ∉
      doRenderOnceVideoFilters (renderConfig2 envW envH) srtPath) ∧
    outputResolution
        (buildVideoFilters (renderConfig1 envW envH) srtPath subsEnabled) =
      some (envW.getD 1080, envH.getD 1920) ∧
    outputResolution
        (doRenderOnceVideoFilters (renderConfig2 envW envH) srtPath) =
      some (envW.getD 720, envH.getD 1280) := by
  exact ⟨mem_cropByFactor_buildVideoFilters envW envH srtPath subsEnabled,
    no_scaleByFactor_buildVideoFilters envW envH srtPath subsEnabled,
    take3_doRenderOnceVideoFilters envW envH srtPath,
    no_cropByFactor_doRenderOnceVideoFilters envW envH srtPath,
    outputResolution_buildVideoFilters _ _ _,
    outputResolution_doRenderOnceVideoFilters _ _⟩

/-- Witness for `prezoom_crop_vs_scale` at a concrete canvas override with
a subtitle file present. -/
theorem prezoom_crop_vs_scale_witness :
    VFilter.cropByFactor 1.12 ∈
      buildVideoFilters (renderConfig1 (some 640) (some 360))
        (some "subs.srt") true ∧
    (doRenderOnceVideoFilters (renderConfig2 (some 640) (some 360))
        (some "subs.srt")).take 3 =
      [VFilter.hflip, VFilter.scaleByFactor 1.12, VFilter.cropSame] ∧
    outputResolution (buildVideoFilters (renderConfig1 (some 640) (some 360))
        (some "subs.srt") true) = some (640, 360) := by
  exact ⟨(prezoom_crop_vs_scale (some 640) (some 360) (some "subs.srt") true).1,
    (prezoom_crop_vs_scale (some 640) (some 360) (some "subs.srt") true).2.2.1,
    (prezoom_crop_vs_scale (some 640) (some 360) (some "subs.srt") true).2.2.2.2.1⟩

-- ---- list-manipulation lemmas for the scheduler ----

theorem updateJob_cons (x : Job) (xs : List Job) (id : String)
    (f : Job → Job) :
    updateJob (x :: xs) id f =
      (if x.id == id then f x else x) :: updateJob xs id f := rfl

theorem updateJob_eq_of_not_mem (jobs : List Job) (id : String)
    (f : Job → Job) (h : ∀ x ∈ jobs, x.id ≠ id) :
    updateJob jobs id f = jobs := by
  induction jobs with
  | nil => rfl
  | cons x xs ih =>
    rw [updateJob_cons, ih (fun y hy => h y (List.mem_cons_of_mem x hy))]
    rw [if_neg]
    simp only [beq_iff_eq]
    exact h x (List.mem_cons_self x xs)

theorem updateJob_id_map (jobs : List Job) (id : String) (f : Job → Job)
    (hid : ∀ x, (f x).id = x.id) :
    (updateJob jobs id f).map Job.id = jobs.map Job.id := by
  induction jobs with
  | nil => rfl
  | cons x xs ih =>
    rw [updateJob_cons, List.map_cons, List.map_cons, ih]
    by_cases h : x.id == id
    · rw [if_pos h, hid]
    · rw [if_neg h]

theorem job_eq_of_id_eq {jobs : List Job} (hnd : (jobs.map Job.id).Nodup)
    {a b : Job} (ha : a ∈ jobs) (hb : b ∈ jobs) (h : a.id = b.id) : a = b :=
  List.inj_on_of_nodup_map hnd ha hb h

theorem mem_updateJob_pair {jobs : List Job}
    (hnd : (jobs.map Job.id).Nodup) {id : String} {f : Job → Job}
    {j j' : Job} (hj : j ∈ jobs)
    (hj' : j' ∈ updateJob jobs id f) (heq : j'.id = j.id)
    (hid : ∀ x, (f x).id = x.id) :
    j' = if j.id == id then f j else j := by
  unfold updateJob at hj'
  obtain ⟨x, hx, rfl⟩ := List.mem_map.mp hj'
  have hxid : x.id = j.id := by
    by_cases h : x.id == id
    · rw [if_pos h] at heq; rw [← heq, hid]
    · rw [if_neg h] at heq; exact heq
  have hxj : x = j := job_eq_of_id_eq hnd hx hj hxid
  subst hxj
  rfl

theorem pcount_cons (x : Job) (xs : List Job) :
    pcount (x :: xs) =
      (if x.status = .processing then 1 else 0) + pcount xs := by
  unfold pcount
  rw [List.filter_cons]
  by_cases h : x.status = .processing
  · simp [h]; omega
  · simp [h]

theorem pcount_append (a b : List Job) :
    pcount (a ++ b) = pcount a + pcount b := by
  simp [pcount, List.filter_append]

theorem nextQueued_spec {jobs : List Job} {j : Job}
    (h : nextQueued jobs = some j) : j ∈ jobs ∧ j.status = .queued := by
  unfold nextQueued at h
  refine ⟨List.mem_of_find?_eq_some h, ?_⟩
  have := List.find?_some h
  simpa using this

theorem pcount_updateJob_queued (j : Job) (f : Job → Job)
    (hf : ∀ x, (f x).status = .processing) (_hid : ∀ x, (f x).id = x.id)
    (hq : j.status = .queued) :
    ∀ jobs : List Job, (jobs.map Job.id).Nodup → j ∈ jobs →
      pcount (updateJob jobs j.id f) = pcount jobs + 1 := by
  intro jobs
  induction jobs with
  | nil => intro _ hj; cases hj
  | cons x xs ih =>
    intro hnd hj
    rw [List.map_cons, List.nodup_cons] at hnd
    rw [updateJob_cons]
    rcases List.mem_cons.mp hj with rfl | hmem
    · rw [if_pos (by simp)]
      rw [updateJob_eq_of_not_mem xs j.id f
        (fun y hy hc => hnd.1 (hc ▸ List.mem_map_of_mem Job.id hy))]
      rw [pcount_cons, pcount_cons]
      simp [hf, hq]
      omega
    · have hne : ¬(x.id == j.id) := by
        simp only [beq_iff_eq]
        intro hc
        exact hnd.1 (hc ▸ List.mem_map_of_mem Job.id hmem)
      rw [if_neg hne, pcount_cons, pcount_cons, ih hnd.2 hmem]
      omega

theorem pcount_updateJob_settled (j : Job) (f : Job → Job)
    (hf : ∀ x, (f x).status ≠ .processing) (_hid : ∀ x, (f x).id = x.id)
    (hp : j.status = .processing) :
    ∀ jobs : List Job, (jobs.map Job.id).Nodup → j ∈ jobs →
      pcount (updateJob jobs j.id f) + 1 = pcount jobs := by
  intro jobs
  induction jobs with
  | nil => intro _ hj; cases hj
  | cons x xs ih =>
    intro hnd hj
    rw [List.map_cons, List.nodup_cons] at hnd
    rw [updateJob_cons]
    rcases List.mem_cons.mp hj with rfl | hmem
    · rw [if_pos (by simp)]
      rw [updateJob_eq_of_not_mem xs j.id f
        (fun y hy hc => hnd.1 (hc ▸ List.mem_map_of_mem Job.id hy))]
      rw [pcount_cons, pcount_cons]
      simp [hf, hp]
      omega
    · have hne : ¬(x.id == j.id) := by
        simp only [beq_iff_eq]
        intro hc
        exact hnd.1 (hc ▸ List.mem_map_of_mem Job.id hmem)
      rw [if_neg hne, pcount_cons, pcount_cons]
      have := ih hnd.2 hmem
      omega

theorem pcount_cleanupJobs (ttl now : Nat) (jobs : List Job) :
    pcount (cleanupJobs ttl now jobs) = pcount jobs := by
  induction jobs with
  | nil => rfl
  | cons x xs ih =>
    unfold cleanupJobs at *
    rw [List.filter_cons]
    by_cases hkeep : (evictDone ttl now x || evictError now x) = true
    · have hp2 : x.status ≠ .processing := by
        intro hp
        simp [evictDone, evictError, hp] at hkeep
      rw [if_neg (by simp [hkeep])]
      rw [ih, pcount_cons]
      simp [hp2]
    · rw [if_pos (by simp only [Bool.not_eq_true] at hkeep; simp [hkeep])]
      rw [pcount_cons, pcount_cons, ih]

-- ---- invariant preservation ----

theorem schedInv_maybeRun {maxConc : Nat} {st : SchedState} (now : Nat)
    (h : SchedInv maxConc st) : SchedInv maxConc (maybeRun st maxConc now) := by
  obtain ⟨hnd, hcnt, hle⟩ := h
  unfold maybeRun
  by_cases hfull : maxConc ≤ st.running
  · rw [if_pos hfull]; exact ⟨hnd, hcnt, hle⟩
  · rw [if_neg hfull]
    cases hq : nextQueued st.jobs with
    | none => exact ⟨hnd, hcnt, hle⟩
    | some j =>
      obtain ⟨hmem, hstat⟩ := nextQueued_spec hq
      refine ⟨?_, ?_, ?_⟩
      · show (List.map Job.id (updateJob st.jobs j.id _)).Nodup
        rw [updateJob_id_map st.jobs j.id
          (fun x => { x with status := .processing, updatedAt := now })
          (fun x => rfl)]
        exact hnd
      · show st.running + 1 = pcount (updateJob st.jobs j.id _)
        rw [pcount_updateJob_queued j
          (fun x => { x with status := .processing, updatedAt := now })
          (fun x => rfl) (fun x => rfl) hstat st.jobs hnd hmem]
        omega
      · show st.running + 1 ≤ maxConc
        omega

theorem schedInv_step {maxConc : Nat} {st st' : SchedState}
    (h : SchedInv maxConc st) (hs : SchedStep maxConc st st') :
    SchedInv maxConc st' := by
  obtain ⟨hnd, hcnt, hle⟩ := h
  cases hs with
  | enqueue id now params fresh =>
    refine ⟨?_, ?_, ?_⟩
    · show (List.map Job.id (st.jobs ++ [mkJob id now params])).Nodup
      rw [List.map_append]
      refine List.Nodup.append hnd (by simp) ?_
      intro a ha hb
      obtain ⟨x, hx, rfl⟩ := List.mem_map.mp ha
      simp [mkJob] at hb
      exact fresh x hx hb
    · show st.running = pcount (st.jobs ++ [mkJob id now params])
      rw [pcount_append]
      have h0 : pcount [mkJob id now params] = 0 := by simp [pcount, mkJob]
      omega
    · exact hle
  | dispatch now => exact schedInv_maybeRun now ⟨hnd, hcnt, hle⟩
  | settle j outcome now hmem hproc =>
    apply schedInv_maybeRun
    have hset : ∀ x, (settleJob x outcome now).status ≠ JobStatus.processing := by
      intro x
      cases outcome <;> simp [settleJob]
    have hsid : ∀ x, (settleJob x outcome now).id = x.id := by
      intro x
      cases outcome <;> rfl
    refine ⟨?_, ?_, ?_⟩
    · show (List.map Job.id (updateJob st.jobs j.id _)).Nodup
      rw [updateJob_id_map st.jobs j.id (fun x => settleJob x outcome now) hsid]
      exact hnd
    · show st.running - 1 = pcount (updateJob st.jobs j.id _)
      have := pcount_updateJob_settled j (fun x => settleJob x outcome now)
        hset hsid hproc st.jobs hnd hmem
      omega
    · show st.running - 1 ≤ maxConc
      omega
  | sweep ttl now =>
    refine ⟨?_, ?_, ?_⟩
    · show (List.map Job.id (cleanupJobs ttl now st.jobs)).Nodup
      exact List.Nodup.sublist
        (List.Sublist.map Job.id (List.filter_sublist st.jobs)) hnd
    · show st.running = pcount (cleanupJobs ttl now st.jobs)
      rw [pcount_cleanupJobs]
      exact hcnt
    · exact hle

theorem schedInv_reachable {maxConc : Nat} {st : SchedState}
    (h : Reachable maxConc st) : SchedInv maxConc st := by
  unfold Reachable at h
  induction h with
  | refl =>
    exact ⟨by simp [initialState], by simp [initialState, pcount],
      by simp [initialState]⟩
  | tail _ hstep ih => exact schedInv_step ih hstep

/-- **C3.** At every reachable scheduler state the `RUNNING` counter equals
the number of jobs in `processing` — it is incremented exactly when a
queued job is admitted and decremented exactly once when that job's
processing settles — and it never exceeds the configured maximum
concurrency, no matter how many jobs are submitted. -/
theorem running_never_exceeds_concurrency (maxConc : Nat) (st : SchedState)
    (h : Reachable maxConc st) :
    st.running = pcount st.jobs ∧ st.running ≤ maxConc := by
  have hinv := schedInv_reachable h
  exact ⟨hinv.2.1, hinv.2.2⟩

/-- Witness for `running_never_exceeds_concurrency`: submit two jobs with
`MAX_CONCURRENCY = 1` and run the dispatcher twice; the counter matches the
processing population and stays at most 1. -/
theorem running_never_exceeds_concurrency_witness :
    (maybeRun (maybeRun (enqueueRender
        (enqueueRender initialState "job-a" 0 sampleParams)
        "job-b" 1 sampleParams) 1 2) 1 3).running =
      pcount (maybeRun (maybeRun (enqueueRender
        (enqueueRender initialState "job-a" 0 sampleParams)
        "job-b" 1 sampleParams) 1 2) 1 3).jobs ∧
    (maybeRun (maybeRun (enqueueRender
        (enqueueRender initialState "job-a" 0 sampleParams)
        "job-b" 1 sampleParams) 1 2) 1 3).running ≤ 1 := by
  have h1 : SchedStep 1 initialState
      (enqueueRender initialState "job-a" 0 sampleParams) :=
    SchedStep.enqueue initialState "job-a" 0 sampleParams
      (by intro j hj; cases hj)
  have h2 : SchedStep 1 (enqueueRender initialState "job-a" 0 sampleParams)
      (enqueueRender (enqueueRender initialState "job-a" 0 sampleParams)
        "job-b" 1 sampleParams) :=
    SchedStep.enqueue _ "job-b" 1 sampleParams (by decide)
  have h3 : SchedStep 1
      (enqueueRender (enqueueRender initialState "job-a" 0 sampleParams)
        "job-b" 1 sampleParams)
      (maybeRun (enqueueRender
        (enqueueRender initialState "job-a" 0 sampleParams)
        "job-b" 1 sampleParams) 1 2) :=
    SchedStep.dispatch _ 2
  have h4 : SchedStep 1
      (maybeRun (enqueueRender
        (enqueueRender initialState "job-a" 0 sampleParams)
        "job-b" 1 sampleParams) 1 2)
      (maybeRun (maybeRun (enqueueRender
        (enqueueRender initialState "job-a" 0 sampleParams)
        "job-b" 1 sampleParams) 1 2) 1 3) :=
    SchedStep.dispatch _ 3
  exact running_never_exceeds_concurrency 1 _
    ((((Relation.ReflTransGen.single h1).tail h2).tail h3).tail h4)

theorem allowedTransition_refl (s : JobStatus) : allowedTransition s s := by
  cases s <;> simp [allowedTransition]

theorem maybeRun_status {st : SchedState} {maxConc now : Nat}
    (hnd : (st.jobs.map Job.id).Nodup) {j j' : Job}
    (hj : j ∈ st.jobs) (hj' : j' ∈ (maybeRun st maxConc now).jobs)
    (hid : j'.id = j.id) :
    j' = j ∨ (j.status = .queued ∧ j'.status = .processing) := by
  unfold maybeRun at hj'
  by_cases hfull : maxConc ≤ st.running
  · rw [if_pos hfull] at hj'
    left; exact job_eq_of_id_eq hnd hj' hj hid
  · rw [if_neg hfull] at hj'
    cases hq : nextQueued st.jobs with
    | none =>
      rw [hq] at hj'
      left; exact job_eq_of_id_eq hnd hj' hj hid
    | some jq =>
      rw [hq] at hj'
      have hj'2 : j' ∈ updateJob st.jobs jq.id
          (fun x => { x with status := .processing, updatedAt := now }) := hj'
      have hpair := mem_updateJob_pair hnd hj hj'2 hid (fun x => rfl)
      by_cases hcase : j.id == jq.id
      · rw [if_pos hcase] at hpair
        right
        have hjq : j = jq :=
          job_eq_of_id_eq hnd hj (nextQueued_spec hq).1 (by simpa using hcase)
        refine ⟨hjq ▸ (nextQueued_spec hq).2, ?_⟩
        rw [hpair]
      · rw [if_neg hcase] at hpair
        left; exact hpair

/-- **C4.** Across every scheduler transition from a reachable state, a
job's status changes only along
`queued -> processing -> done | error`: never backward, never skipping
`processing`, and never leaving a terminal state. -/
theorem status_machine (maxConc : Nat) (st st' : SchedState)
    (hreach : Reachable maxConc st) (hstep : SchedStep maxConc st st')
    (j j' : Job) (hj : j ∈ st.jobs) (hj' : j' ∈ st'.jobs)
    (hid : j'.id = j.id) :
    allowedTransition j.status j'.status := by
  have hnd := (schedInv_reachable hreach).1
  cases hstep with
  | enqueue id now params fresh =>
    have hj'2 : j' ∈ st.jobs ++ [mkJob id now params] := hj'
    rcases List.mem_append.mp hj'2 with hin | hnew
    · rw [job_eq_of_id_eq hnd hin hj hid]
      exact allowedTransition_refl _
    · exfalso
      simp only [List.mem_singleton] at hnew
      apply fresh j hj
      rw [← hid, hnew]
      rfl
  | dispatch now =>
    rcases maybeRun_status hnd hj hj' hid with heq | ⟨hq, hp⟩
    · rw [heq]; exact allowedTransition_refl _
    · rw [hq, hp]; simp [allowedTransition]
  | settle j0 outcome now hmem hproc =>
    have hsid : ∀ x, (settleJob x outcome now).id = x.id := by
      intro x; cases outcome <;> rfl
    have hnd1 : ((updateJob st.jobs j0.id
        (fun x => settleJob x outcome now)).map Job.id).Nodup := by
      rw [updateJob_id_map st.jobs j0.id _ hsid]; exact hnd
    have hj1mem : (if j.id == j0.id then settleJob j outcome now else j) ∈
        updateJob st.jobs j0.id (fun x => settleJob x outcome now) :=
      List.mem_map_of_mem _ hj
    have hid1 : (if j.id == j0.id then settleJob j outcome now else j).id =
        j.id := by
      by_cases h : j.id == j0.id
      · rw [if_pos h]; exact hsid j
      · rw [if_neg h]
    have hj'1 : j' ∈ (maybeRun
        ⟨updateJob st.jobs j0.id (fun x => settleJob x outcome now),
          st.running - 1⟩ maxConc now).jobs := hj'
    have h2 := maybeRun_status hnd1 hj1mem hj'1 (hid.trans hid1.symm)
    by_cases hcase : j.id == j0.id
    · have hj0 : j = j0 := job_eq_of_id_eq hnd hj hmem (by simpa using hcase)
      rw [if_pos hcase] at h2
      have hstat : (settleJob j outcome now).status = .done ∨
          (settleJob j outcome now).status = .error := by
        cases outcome <;> simp [settleJob]
      rcases h2 with heq | ⟨hqs, _⟩
      · rw [heq, hj0, hproc]
        rcases hj0 ▸ hstat with h | h <;> simp [allowedTransition, h]
      · exfalso
        rcases hstat with h | h <;> rw [h] at hqs <;> cases hqs
    · rw [if_neg hcase] at h2
      rcases h2 with heq | ⟨hqs, hps⟩
      · rw [heq]; exact allowedTransition_refl _
      · rw [hqs, hps]; simp [allowedTransition]
  | sweep ttl now =>
    have hj'2 : j' ∈ st.jobs :=
      List.mem_of_mem_filter hj'
    rw [job_eq_of_id_eq hnd hj'2 hj hid]
    exact allowedTransition_refl _

/-- Witness for `status_machine`: the dispatcher admits the single queued
job of a reachable one-job state; the observed transition is
`queued -> processing`, which is allowed. -/
theorem status_machine_witness :
    allowedTransition (mkJob "job-a" 0 sampleParams).status
      JobStatus.processing := by
  have h := status_machine 1
    (enqueueRender initialState "job-a" 0 sampleParams)
    (maybeRun (enqueueRender initialState "job-a" 0 sampleParams) 1 2)
    (Relation.ReflTransGen.single
      (SchedStep.enqueue initialState "job-a" 0 sampleParams
        (by intro x hx; cases hx)))
    (SchedStep.dispatch _ 2)
    (mkJob "job-a" 0 sampleParams)
    ⟨"job-a", .processing, outPathFor "job-a", none, 0, 2, none, sampleParams⟩
    (by decide) (by decide) rfl
  simpa using h

/-- **C9.** A submission missing either required field (`video_url` or
`audio_url`) is rejected immediately with the validation error and the
scheduler state — in particular the job list — is unchanged; a submission
with both fields present allocates exactly one new job record, in state
`queued`, with the deterministic output location derived from its id, and
returns the job identifier with the running counter untouched (nothing
blocks on execution). -/
theorem submission_validation (st : SchedState) (body : RenderParams)
    (freshId : String) (now : Nat) :
    ((truthyStr body.video_url = false ∨ truthyStr body.audio_url = false) →
      postRender st body freshId now =
        (.badRequest "video_url and audio_url required", st)) ∧
    (truthyStr body.video_url = true → truthyStr body.audio_url = true →
      postRender st body freshId now =
        (.accepted freshId, enqueueRender st freshId now body) ∧
      (enqueueRender st freshId now body).jobs =
        st.jobs ++ [mkJob freshId now body] ∧
      (mkJob freshId now body).status = .queued ∧
      (mkJob freshId now body).outPath = outPathFor freshId ∧
      (enqueueRender st freshId now body).running = st.running) := by
  constructor
  · intro h
    rcases h with h | h <;> simp [postRender, h]
  · intro h1 h2
    refine ⟨by simp [postRender, h1, h2], rfl, rfl, rfl, rfl⟩

/-- Witness for `submission_validation`: a body missing `video_url` is
rejected with the queue untouched; a complete body is accepted as a queued
job. -/
theorem submission_validation_witness :
    postRender initialState
        ⟨none, some "http://example/a.mp3", none, none, none, none, none,
          none, none, none, none⟩ "job-x" 0 =
      (.badRequest "video_url and audio_url required", initialState) ∧
    postRender initialState sampleParams "job-x" 0 =
      (.accepted "job-x", enqueueRender initialState "job-x" 0 sampleParams) := by
  constructor
  · exact (submission_validation initialState
      ⟨none, some "http://example/a.mp3", none, none, none, none, none,
        none, none, none, none⟩ "job-x" 0).1 (Or.inl rfl)
  · exact ((submission_validation initialState sampleParams "job-x" 0).2
      (by decide) (by decide)).1

/-- **C2 counterexample.** A job whose render is still in flight when the
job timeout fires enters `error` (terminal) at time 5, yet its recorded
intermediate `v.mp4` is still on disk at time 7: cleanup happens only when
the orphaned `doRenderOnce` settles at time 10, because `withJobTimeout`
does not cancel the raced promise.  This refutes the claim that every
recorded intermediate is absent from the filesystem after terminal-state
entry on every path. -/
theorem intermediate_survives_terminal_entry :
    finalStatus ⟨10, true, ["v.mp4", "a.mp3"]⟩ 5 = .error ∧
    terminalAt ⟨10, true, ["v.mp4", "a.mp3"]⟩ 5 = 5 ∧
    intermediatePresentAt ⟨10, true, ["v.mp4", "a.mp3"]⟩ "v.mp4" 7 = true := by
  refine ⟨by decide, by decide, by decide⟩

/-- **C2 (amended).** Every intermediate file recorded during a job's
execution is deleted exactly when its `doRenderOnce` attempt settles, on
the success, primary-failure and retry-failure paths alike; consequently,
for every job whose attempt settles within the job timeout — every terminal
path except the job-timeout path — all intermediates are absent from the
moment the job enters its terminal state onwards.  On the job-timeout path
the job becomes terminal at the timeout and the intermediates become absent
only once the orphaned attempt settles. -/
theorem intermediates_deleted_at_settle (e : RenderExec) (T t : Nat)
    (f : String) :
    (e.settleAt ≤ t → intermediatePresentAt e f t = false) ∧
    (e.settleAt ≤ T → terminalAt e T = e.settleAt) ∧
    (e.settleAt ≤ T → terminalAt e T ≤ t →
      intermediatePresentAt e f t = false) := by
  refine ⟨fun h => ?_, fun h => ?_, fun h ht => ?_⟩
  · unfold intermediatePresentAt
    have : ¬(t < e.settleAt) := by omega
    simp [this]
  · unfold terminalAt
    omega
  · unfold intermediatePresentAt
    unfold terminalAt at ht
    have : ¬(t < e.settleAt) := by omega
    simp [this]

/-- Witness for `intermediates_deleted_at_settle`: a failed render settling
at time 10 within a 20 ms job timeout has no intermediate on disk at its
own terminal-entry time. -/
theorem intermediates_deleted_at_settle_witness :
    intermediatePresentAt ⟨10, false, ["v.mp4", "a.mp3"]⟩ "v.mp4" 10 = false ∧
    terminalAt ⟨10, false, ["v.mp4", "a.mp3"]⟩ 20 = 10 := by
  constructor
  · exact (intermediates_deleted_at_settle ⟨10, false, ["v.mp4", "a.mp3"]⟩
      20 10 "v.mp4").1 (by decide)
  · exact (intermediates_deleted_at_settle ⟨10, false, ["v.mp4", "a.mp3"]⟩
      20 10 "v.mp4").2.1 (by decide)

/-- **C10.** The job-level timeout does not cancel the in-flight render:
for every job whose timer fires before `doRenderOnce` settles, the job is
marked `error` at the timeout, yet the underlying computation continues and
its filesystem effects still occur — a render that later succeeds still
writes the output file at the job's deterministic output path, present on
disk from the (strictly post-terminal) settle time onwards. -/
theorem timeout_does_not_cancel_render (e : RenderExec) (T : Nat)
    (hlate : T < e.settleAt) (hok : e.succeeds = true) :
    finalStatus e T = .error ∧
    terminalAt e T = T ∧
    terminalAt e T < e.settleAt ∧
    (∀ t, e.settleAt ≤ t → outputPresentAt e t = true) := by
  refine ⟨?_, ?_, ?_, fun t ht => ?_⟩
  · unfold finalStatus
    rw [if_neg (by omega)]
  · unfold terminalAt
    omega
  · unfold terminalAt
    omega
  · unfold outputPresentAt
    simp [hok, ht]

/-- Witness for `timeout_does_not_cancel_render`: a successful render
settling at time 10 under a job timeout of 5 leaves the job in `error` at
time 5 and the output on disk at time 10. -/
theorem timeout_does_not_cancel_render_witness :
    finalStatus ⟨10, true, ["v.mp4"]⟩ 5 = .error ∧
    outputPresentAt ⟨10, true, ["v.mp4"]⟩ 10 = true := by
  constructor
  · exact (timeout_does_not_cancel_render ⟨10, true, ["v.mp4"]⟩ 5
      (by decide) rfl).1
  · exact (timeout_does_not_cancel_render ⟨10, true, ["v.mp4"]⟩ 5
      (by decide) rfl).2.2.2 10 (by decide)

theorem find?_eq_some_of_unique {jobs : List Job} {j : Job} {p : Job → Bool}
    (hmem : j ∈ jobs) (hp : p j = true)
    (huni : ∀ x ∈ jobs, p x = true → x = j) :
    jobs.find? p = some j := by
  induction jobs with
  | nil => cases hmem
  | cons x xs ih =>
    by_cases hx : p x = true
    · rw [List.find?_cons_of_pos _ hx]
      rw [huni x (List.mem_cons_self x xs) hx]
    · rw [List.find?_cons_of_neg _ (by simp [hx])]
      rcases List.mem_cons.mp hmem with rfl | hmem2
      · exact absurd hp hx
      · exact ih hmem2 (fun y hy hpy => huni y (List.mem_cons_of_mem x hy) hpy)

theorem contains_iff_mem (l : List String) (a : String) :
    l.contains a = true ↔ a ∈ l := by
  induction l with
  | nil => simp
  | cons x xs ih => simp [List.contains_cons, ih]

/-- **C8.** Through every pass of the cleanup interval: while `now` is
within the retention window of a completed job (`now ≤ doneAt +
OUTPUT_TTL_MS`), the job record and its artifact survive the pass and the
artifact route answers 200; a pass after the window elapses deletes both
the record and the on-disk artifact, after which the route answers 404;
every error-state record older than the (shorter) 10-minute window is
evicted from the index by the pass; and the error window is indeed shorter
than the default retention window. -/
theorem retention_window (ttl now d : Nat) (jobs : List Job)
    (fs : List String) (j : Job)
    (hmem : j ∈ jobs) (hdone : j.status = .done) (hd : j.doneAt = some d)
    (hd0 : 0 < d) (hpath : j.outPath = outPathFor j.id)
    (hfs : fs.contains (outPathFor j.id) = true)
    (huniq : ∀ x ∈ jobs, x.id = j.id → x = j)
    (hpuniq : ∀ x ∈ jobs, x.outPath = outPathFor j.id → x = j) :
    (now ≤ d + ttl →
      getVideo (cleanupJobs ttl now jobs) (cleanupFs ttl now jobs fs) j.id =
        .ok200) ∧
    (d + ttl < now →
      getVideo (cleanupJobs ttl now jobs) (cleanupFs ttl now jobs fs) j.id =
        .notFound404) ∧
    (∀ x ∈ jobs, x.status = .error → ERROR_EVICT_MS < now - x.updatedAt →
      x ∉ cleanupJobs ttl now jobs) ∧
    ERROR_EVICT_MS < OUTPUT_TTL_MS_DEFAULT := by
  refine ⟨fun hwin => ?_, fun hexp => ?_, fun x hx hxe hxw hcon => ?_, by decide⟩
  · -- within the window: record kept, file kept, route answers 200
    have hno : evictDone ttl now j = false := by
      unfold evictDone
      rw [hd]
      simp [hdone]
      omega
    have hkeep : j ∈ cleanupJobs ttl now jobs := by
      refine List.mem_filter.mpr ⟨hmem, ?_⟩
      simp [hno, evictError, hdone]
    have hfind : (cleanupJobs ttl now jobs).find? (fun x => x.id == j.id) =
        some j := by
      refine find?_eq_some_of_unique hkeep (by simp) ?_
      intro x hx hpx
      exact huniq x (List.mem_of_mem_filter hx) (by simpa using hpx)
    have hany : (jobs.any
        (fun jj => evictDone ttl now jj && jj.outPath == outPathFor j.id)) =
          false := by
      by_contra hc
      rw [Bool.not_eq_false, List.any_eq_true] at hc
      obtain ⟨x, hx, hpx⟩ := hc
      rw [Bool.and_eq_true] at hpx
      have hxj := hpuniq x hx (by simpa using hpx.2)
      rw [hxj, hno] at hpx
      exact absurd hpx.1 (by simp)
    have hfs2 : (cleanupFs ttl now jobs fs).contains (outPathFor j.id) =
        true := by
      rw [contains_iff_mem]
      refine List.mem_filter.mpr ⟨(contains_iff_mem fs _).mp hfs, ?_⟩
      simp [hany]
    have hfsmem : outPathFor j.id ∈ cleanupFs ttl now jobs fs :=
      (contains_iff_mem _ _).mp hfs2
    simp [getVideo, hfind, hdone, hfsmem]
  · -- after the window: record evicted, file removed, route answers 404
    have hev : evictDone ttl now j = true := by
      unfold evictDone
      rw [hd]
      simp [hdone]
      omega
    have hgone : j ∉ cleanupJobs ttl now jobs := by
      intro hc
      have := (List.mem_filter.mp hc).2
      simp [hev] at this
    have hfind : (cleanupJobs ttl now jobs).find? (fun x => x.id == j.id) =
        none := by
      rw [List.find?_eq_none]
      intro x hx hbeq
      have hxj : x = j :=
        huniq x (List.mem_of_mem_filter hx) (by simpa using hbeq)
      rw [hxj] at hx
      exact hgone hx
    have hfs2 : (cleanupFs ttl now jobs fs).contains (outPathFor j.id) =
        false := by
      rw [Bool.eq_false_iff]
      intro hc
      have hmem2 := (List.mem_filter.mp ((contains_iff_mem _ _).mp hc)).2
      have hany : (jobs.any
          (fun jj => evictDone ttl now jj && jj.outPath == outPathFor j.id)) =
            true := by
        rw [List.any_eq_true]
        exact ⟨j, hmem, by simp [hev, hpath]⟩
      rw [hany] at hmem2
      cases hmem2
    have hfsnot : outPathFor j.id ∉ cleanupFs ttl now jobs fs := by
      intro hc
      rw [(contains_iff_mem _ _).mpr hc] at hfs2
      cases hfs2
    simp [getVideo, hfind, hfsnot]
  · -- stale error records are evicted by the pass
    have := (List.mem_filter.mp hcon).2
    simp [evictError, hxe, hxw] at this

/-- Witness for `retention_window`: a single job completed at time 100
under the default 30-minute TTL stays fetchable through a pass inside the
window and answers 404 after a pass past the window. -/
theorem retention_window_witness :
    getVideo (cleanupJobs OUTPUT_TTL_MS_DEFAULT 1000 [sampleDoneJob])
        (cleanupFs OUTPUT_TTL_MS_DEFAULT 1000 [sampleDoneJob]
          [outPathFor "vid-1"]) "vid-1" = .ok200 ∧
    getVideo
        (cleanupJobs OUTPUT_TTL_MS_DEFAULT (100 + OUTPUT_TTL_MS_DEFAULT + 1)
          [sampleDoneJob])
        (cleanupFs OUTPUT_TTL_MS_DEFAULT (100 + OUTPUT_TTL_MS_DEFAULT + 1)
          [sampleDoneJob] [outPathFor "vid-1"]) "vid-1" = .notFound404 := by
  constructor
  · exact (retention_window OUTPUT_TTL_MS_DEFAULT 1000 100 [sampleDoneJob]
      [outPathFor "vid-1"] sampleDoneJob
      (by simp) rfl rfl (by decide) rfl (by decide)
      (by intro x hx h; simpa using hx)
      (by intro x hx h; simpa using hx)).1 (by decide)
  · exact (retention_window OUTPUT_TTL_MS_DEFAULT
      (100 + OUTPUT_TTL_MS_DEFAULT + 1) 100 [sampleDoneJob]
      [outPathFor "vid-1"] sampleDoneJob
      (by simp) rfl rfl (by decide) rfl (by decide)
      (by intro x hx h; simpa using hx)
      (by intro x hx h; simpa using hx)).2.1 (by decide)

end RenderServer
